import Mathlib

/-!
Verification of the c0check test harness core: the spec data model and
wildcard-aware behavior equality (src/spec.rs), the behavior oracle
(src/checker.rs), the predicate evaluators (src/checker.rs, src/executer.rs),
the sandboxed launcher's exit-status classification, child setup and
implementation variants (src/launcher.rs), the spec-language lexer and
parser (src/parse_spec.rs), and test discovery's handling of parse errors
(src/discover_tests.rs).

Each definition is a shallow embedding of the corresponding Rust item,
keeping the source's names where Lean allows it.
-/

namespace C0check

/-! Data model (src/spec.rs) -/

/-- Embeds `Behavior` from src/spec.rs: an expected test behavior / test outcome.
`return_` embeds `Return(Option<i32>)`, the optional 32-bit value as `Option Int`. -/
inductive Behavior
  | compileError
  | runs
  | infiniteLoop
  | abort
  | failure
  | segfault
  | divZero
  | return_ (value : Option Int)
  | skipped
deriving DecidableEq, Repr

/-- The `PartialEq for Behavior` impl from src/spec.rs lines 68-92,
arm by arm in source order: variant-identical pairs, then the `Return`
pair with `None` as a wildcard, then `Skipped` as a wildcard on either
side, then `false`. -/
def behavior_eq : Behavior → Behavior → Bool
  | .compileError, .compileError => true
  | .runs, .runs => true
  | .infiniteLoop, .infiniteLoop => true
  | .abort, .abort => true
  | .failure, .failure => true
  | .segfault, .segfault => true
  | .divZero, .divZero => true
  | .return_ x, .return_ y =>
      match x, y with
      | none, _ => true
      | _, none => true
      | some a, some b => a == b
  | .skipped, _ => true
  | _, .skipped => true
  | _, _ => false

/-- Constructor tag of a `Behavior`, ignoring the `Return` payload;
used to state "compare by variant identity". -/
def behavior_variant : Behavior → Nat
  | .compileError => 0
  | .runs => 1
  | .infiniteLoop => 2
  | .abort => 3
  | .failure => 4
  | .segfault => 5
  | .divZero => 6
  | .return_ _ => 7
  | .skipped => 8

/-- Whether a `Behavior` is a `Return`. -/
def Behavior.is_return : Behavior → Bool
  | .return_ _ => true
  | _ => false

/-- Embeds `ImplementationPredicate` from src/spec.rs. -/
inductive ImplementationPredicate
  | library
  | typechecked
  | garbageCollected
  | safe
  | false_
  | implementationName (name : String)
  | not_ (p : ImplementationPredicate)
  | and_ (p q : ImplementationPredicate)
  | or_ (p q : ImplementationPredicate)
deriving DecidableEq, Repr

/-- Embeds `Spec` from src/spec.rs: `Implication(predicate, spec)` or a bare behavior. -/
inductive Spec
  | implication (p : ImplementationPredicate) (consequent : Spec)
  | behavior (b : Behavior)
deriving DecidableEq, Repr

/-- Embeds `TestExecutionInfo` from src/spec.rs (paths as strings). -/
structure TestExecutionInfo where
  sources : List String
  compiler_options : List String
  directory : String
deriving DecidableEq, Repr

/-- Embeds `ExecuterProperties` from src/executer.rs. -/
structure ExecuterProperties where
  libraries : Bool
  typechecked : Bool
  garbage_collected : Bool
  safe : Bool
  name : String
deriving DecidableEq, Repr

/-- The method `ExecuterProperties::matches_predicate` from src/executer.rs
lines 13-30. -/
def ExecuterProperties.matches_predicate (props : ExecuterProperties) :
    ImplementationPredicate → Bool
  | .library => props.libraries
  | .typechecked => props.typechecked
  | .garbageCollected => props.garbage_collected
  | .safe => props.safe
  | .false_ => false
  | .implementationName name => props.name == name
  | .not_ p => !(props.matches_predicate p)
  | .and_ p q => props.matches_predicate p && props.matches_predicate q
  | .or_ p q => props.matches_predicate p || props.matches_predicate q

/-! Behavior oracle (src/checker.rs) -/

namespace Checker

/-- The free function `matches_predicate` from src/checker.rs lines 52-66. -/
def matches_predicate : ImplementationPredicate → ExecuterProperties → Bool
  | .library, props => props.libraries
  | .typechecked, props => props.typechecked
  | .garbageCollected, props => props.garbage_collected
  | .safe, props => props.safe
  | .false_, _ => false
  | .implementationName name, props => props.name == name
  | .not_ p, props => !(matches_predicate p props)
  | .and_ p q, props => matches_predicate p props && matches_predicate q props
  | .or_ p q, props => matches_predicate p props || matches_predicate q props

/-- Embeds `find_behavior` from src/checker.rs lines 68-80: a bare behavior
resolves to itself; an implication resolves its consequent only when its
predicate matches, and to nothing otherwise. -/
def find_behavior : Spec → ExecuterProperties → Option Behavior
  | .behavior b, _ => some b
  | .implication predicate consequent, props =>
      if matches_predicate predicate props then find_behavior consequent props
      else none

/-- Embeds `TestResult` from src/checker.rs, with the `Failure` payload flattened
into the `mismatch` constructor (expected, actual, output). -/
inductive TestResult
  | success
  | mismatch (expected actual : Behavior) (output : String)
deriving DecidableEq, Repr

/-- The behavior-collection loop at the start of `run_test`
(src/checker.rs lines 11-16): every spec that resolves contributes. -/
def collect_behaviors (specs : List Spec) (props : ExecuterProperties) :
    List Behavior :=
  specs.filterMap (fun s => find_behavior s props)

/-- The comparison loop of `run_test` (src/checker.rs lines 23-27): the
first collected behavior that is not `behavior_eq` to the actual result
is reported as a mismatch. -/
def check_behaviors : List Behavior → Behavior → String → TestResult
  | [], _, _ => .success
  | b :: rest, actual, output =>
      if behavior_eq b actual then check_behaviors rest actual output
      else .mismatch b actual output

/-- Embeds `run_test` from src/checker.rs lines 7-30. The executer's run is
modelled by its result `exec = (captured output, actual behavior)`; the
returned `Bool` records whether `executer.run_test` was invoked (the code
returns `Success` before running anything when no behavior applies). -/
def run_test (specs : List Spec) (props : ExecuterProperties)
    (exec : String × Behavior) : TestResult × Bool :=
  let behaviors := collect_behaviors specs props
  if behaviors.isEmpty then (.success, false)
  else (check_behaviors behaviors exec.2 exec.1, true)

/-- The predicates along the `Implication` spine of a spec, outermost first. -/
def spine_preds : Spec → List ImplementationPredicate
  | .behavior _ => []
  | .implication p consequent => p :: spine_preds consequent

/-- The behavior at the end of the `Implication` spine of a spec. -/
def spine_behavior : Spec → Behavior
  | .behavior b => b
  | .implication _ consequent => spine_behavior consequent

/-- Modelled from the spec's words (for comparison with `find_behavior`,
which is translated from the code): "walk Implication nodes ...; stop and
return the wrapped Behavior at the first true predicate (or the first node
if it's a bare Behavior); if no predicate in the chain is true, that entry
contributes nothing". -/
def spec_resolve_first_true (s : Spec) (props : ExecuterProperties) :
    Option Behavior :=
  match s with
  | .behavior b => some b
  | .implication _ _ =>
      if (spine_preds s).any (fun p => matches_predicate p props) then
        some (spine_behavior s)
      else none

end Checker

/-! Launcher (src/launcher.rs) -/

/-- Rust's `str::ends_with`, used on source-file names. -/
def ends_with (s suffix : String) : Bool :=
  suffix.data.isSuffixOf s.data

/-- The (fieldless) `CC0Executer` struct from src/launcher.rs. -/
structure CC0Executer
deriving DecidableEq, Repr

/-- The (fieldless) `C0VMExecuter` struct from src/launcher.rs. -/
structure C0VMExecuter
deriving DecidableEq, Repr

/-- The (fieldless) `CoinExecuter` struct from src/launcher.rs. -/
structure CoinExecuter
deriving DecidableEq, Repr

/-- Embeds `CC0Executer::properties` from src/launcher.rs lines 43-52. -/
def CC0Executer.properties (_ : CC0Executer) : ExecuterProperties :=
  { libraries := true
    typechecked := true
    garbage_collected := true
    safe := true
    name := "cc0" }

/-- Embeds `C0VMExecuter::properties` from src/launcher.rs lines 85-94. -/
def C0VMExecuter.properties (_ : C0VMExecuter) : ExecuterProperties :=
  { libraries := true
    typechecked := true
    garbage_collected := false
    safe := true
    name := "cc0_c0vm" }

/-- Embeds `CoinExecuter::properties` from src/launcher.rs lines 115-123. -/
def CoinExecuter.properties (_ : CoinExecuter) : ExecuterProperties :=
  { libraries := true
    typechecked := true
    garbage_collected := false
    safe := true
    name := "coin" }

/-- Outcome of `CoinExecuter::run_test` (src/launcher.rs lines 99-113)
before any child process exists: either the early `Ok((output, behavior))`
return that skips the test, or a call to `execute_with_args` with the
given argument list (the only path that spawns a child process). -/
inductive CoinRunResult
  | skip (output : String) (behavior : Behavior)
  | execute (args : List String)
deriving DecidableEq, Repr

/-- Embeds `CoinExecuter::run_test` from src/launcher.rs lines 99-113: any source
ending in ".c1" short-circuits to `Ok(("<C1 test skipped>", Skipped))`;
otherwise coin is executed on compiler options followed by sources. -/
def CoinExecuter.run_test (test : TestExecutionInfo) : CoinRunResult :=
  if test.sources.any (fun source => ends_with source ".c1") then
    .skip "<C1 test skipped>" .skipped
  else
    .execute (test.compiler_options ++ test.sources)

/-- The signals distinguished by `execute_with_args` (src/launcher.rs
lines 319-325); every other signal is collapsed into `other`. -/
inductive Signal
  | sigsegv
  | sigalrm
  | sigfpe
  | sigabrt
  | other (n : Nat)
deriving DecidableEq, Repr

/-- Embeds `nix::sys::wait::WaitStatus` as matched by `execute_with_args`:
normal exit with a code, termination by a signal, or any other status
(stopped, continued, ...). -/
inductive WaitStatus
  | exited (code : Int)
  | signaled (sig : Signal)
  | otherStatus
deriving DecidableEq, Repr

/-- Embeds `EXEC_FAILURE_CODE` from src/launcher.rs line 167. -/
def EXEC_FAILURE_CODE : Int := 100

/-- Embeds `RUST_PANIC_CODE` from src/launcher.rs line 168. -/
def RUST_PANIC_CODE : Int := 101

/-- Embeds `i32::from_ne_bytes` on a little-endian host: the 4 bytes, least
significant first, read as a two's-complement 32-bit signed integer. -/
def i32_from_ne_bytes (b0 b1 b2 b3 : Nat) : Int :=
  let u : Nat := b0 + 256 * b1 + 65536 * b2 + 16777216 * b3
  if u < 2147483648 then (u : Int) else (u : Int) - 4294967296

/-- The result-file decoding in `execute_with_args` (src/launcher.rs lines
287-301): `none` stands for `fs::read` failing (missing file); a byte list
of length exactly 5 yields the value of bytes 1..4 (byte 0 is the ignored
tag byte); any other length yields no value. -/
def parse_result_file : Option (List Nat) → Option Int
  | some [_, b1, b2, b3, b4] => some (i32_from_ne_bytes b1 b2 b3 b4)
  | some _ => none
  | none => none

/-- Result of classifying a child's exit status: a `Behavior`, or an
infrastructure error (the `Err(anyhow!(..))` early returns). -/
inductive ExecOutcome
  | ok (b : Behavior)
  | error (msg : String)
deriving DecidableEq, Repr

/-- Whether an `ExecOutcome` is an infrastructure error. -/
def ExecOutcome.is_error : ExecOutcome → Bool
  | .ok _ => false
  | .error _ => true

/-- The `behavior` match of `execute_with_args` (src/launcher.rs lines
303-327), given the decoded result-file value, arm by arm in source
order. -/
def classify_status (status : WaitStatus) (result : Option Int) :
    ExecOutcome :=
  match status with
  | .exited code =>
      if code = 0 then
        match result with
        | some exit_code => .ok (.return_ (some exit_code))
        | none =>
            .error "C0 program exited succesfully, but no return value was written"
      else if code = 1 then .ok .failure
      else if code = 2 then .ok .compileError
      else if code = 4 then .ok .failure
      else if code = EXEC_FAILURE_CODE then .error "Failed to exec the test program"
      else if code = RUST_PANIC_CODE then .error "Test program process panicked"
      else .error "Unexpected program exit status"
  | .signaled sig =>
      match sig with
      | .sigsegv => .ok .segfault
      | .sigalrm => .ok .infiniteLoop
      | .sigfpe => .ok .divZero
      | .sigabrt => .ok .abort
      | .other _ => .error "Program exited with unexpected signal"
  | .otherStatus => .error "Program unexpectedly failed"

/-- The parent-side classification of `execute_with_args`: read and decode
the result file, then classify the wait status. -/
def execute_result (status : WaitStatus) (result_file : Option (List Nat)) :
    ExecOutcome :=
  classify_status status (parse_result_file result_file)

/-- The operations a forked child may perform before `execve`. The
constructors `setAddressSpaceLimit` and `setCpuTimeLimit` express
setrlimit-style ceilings so that claims about them are statable; the
remaining constructors are the operations src/launcher.rs actually
performs. -/
inductive ChildAction
  | setCurrentDir (dir : String)
  | redirectStdoutStderrToPipe
  | closeReadPipe
  | setWallClockAlarm (seconds : Nat)
  | setAddressSpaceLimit (bytes : Nat)
  | setCpuTimeLimit (softSeconds hardSeconds : Nat)
  | execProgram (resultFileEnv : String)
deriving DecidableEq, Repr

/-- Whether an action caps the child's address space / memory. -/
def ChildAction.is_memory_limit : ChildAction → Bool
  | .setAddressSpaceLimit _ => true
  | _ => false

/-- Whether an action caps the child's CPU time. -/
def ChildAction.is_cpu_limit : ChildAction → Bool
  | .setCpuTimeLimit _ _ => true
  | _ => false

/-- The child branch of `execute_with_args` (src/launcher.rs lines
273-281), in source order: change into the test directory, redirect
stdout/stderr into the capture pipe, close the read end, arm a wall-clock
alarm of `timeout` seconds (`unistd::alarm::set`), then `execve` the
target with `C0_RESULT_FILE` in its environment. -/
def execute_child_actions (dir : String) (timeout : Nat)
    (result_env : String) : List ChildAction :=
  [ .setCurrentDir dir
  , .redirectStdoutStderrToPipe
  , .closeReadPipe
  , .setWallClockAlarm timeout
  , .execProgram result_env ]

/-! Spec-language lexer (src/parse_spec.rs, the `SpecToken` logos lexer)

The logos-generated lexer is maximal-munch: at each position, after
skipping `[ \t]+`, the longest match among all token patterns wins, and on
a length tie an explicit `#token` string beats the identifier regex.
Unmatched characters become `Error` tokens. The `return` token's callback
`lex_return` consumes the following token: a number or `*` completes a
`Return` token, anything else (including end of input) turns the whole
thing into an `Error` token. -/

/-- Embeds `SpecToken` from src/parse_spec.rs lines 261-318 (`Star` and `Number`
are only used while lexing `return`, but they can appear in the token
stream when standing alone, exactly as with logos). -/
inductive SpecToken
  | testStartMarker
  | compileError
  | runs
  | infiniteLoop
  | abort
  | failure
  | segfault
  | divZero
  | return_ (value : Option Int)
  | star
  | number (value : Int)
  | lib
  | typechecked
  | garbageCollected
  | safe
  | false_
  | implementation (name : String)
  | not_
  | comma
  | or_
  | semicolon
  | fatArrow
  | error
deriving DecidableEq, Repr

/-- Embeds `SpecToken::is_behavior` from src/parse_spec.rs lines 320-335. -/
def SpecToken.is_behavior : SpecToken → Bool
  | .compileError => true
  | .runs => true
  | .infiniteLoop => true
  | .segfault => true
  | .abort => true
  | .failure => true
  | .divZero => true
  | .return_ _ => true
  | _ => false

/-- Length of the leading `[ \t]+` run (the logos skip pattern). -/
def count_ws : List Char → Nat
  | [] => 0
  | c :: cs => if c == ' ' || c == '\t' then count_ws cs + 1 else 0

/-- Length of the longest leading run of identifier-continuation
characters `[-a-zA-Z0-9_]`. -/
def ident_cont_len : List Char → Nat
  | [] => 0
  | c :: cs =>
      if c.isAlphanum || c == '-' || c == '_' then ident_cont_len cs + 1
      else 0

/-- Longest match of the identifier regex `[a-zA-Z_][-a-zA-Z0-9_]*`
(0 when it does not match). -/
def ident_len : List Char → Nat
  | [] => 0
  | c :: cs => if c.isAlpha || c == '_' then ident_cont_len cs + 1 else 0

/-- Length of the longest leading run of decimal digits. -/
def digits_len : List Char → Nat
  | [] => 0
  | c :: cs => if c.isDigit then digits_len cs + 1 else 0

/-- Longest match of `(0|[1-9][0-9]*)` (0 when it does not match). -/
def dec_body_len : List Char → Nat
  | [] => 0
  | c :: cs =>
      if c == '0' then 1
      else if c.isDigit then digits_len cs + 1
      else 0

/-- Longest match of the decimal number regex `[+-]?(0|[1-9][0-9]*)`. -/
def dec_match_len : List Char → Nat
  | [] => 0
  | c :: cs =>
      if c == '+' || c == '-' then
        let b := dec_body_len cs
        if b == 0 then 0 else b + 1
      else dec_body_len (c :: cs)

/-- Whether a character is a hexadecimal digit. -/
def is_hex_digit (c : Char) : Bool :=
  c.isDigit
    || (decide (97 ≤ c.toNat) && decide (c.toNat ≤ 102))
    || (decide (65 ≤ c.toNat) && decide (c.toNat ≤ 70))

/-- Length of the longest leading run of hexadecimal digits. -/
def hex_digits_len : List Char → Nat
  | [] => 0
  | c :: cs => if is_hex_digit c then hex_digits_len cs + 1 else 0

/-- Longest match of the hex number regex `0[xX][0-9a-fA-F]+`. -/
def hex_match_len : List Char → Nat
  | c0 :: c1 :: cs =>
      if c0 == '0' && (c1 == 'x' || c1 == 'X') then
        let h := hex_digits_len cs
        if h == 0 then 0 else h + 2
      else 0
  | _ => 0

/-- Value of a decimal digit string. -/
def digits_to_nat (acc : Nat) : List Char → Nat
  | [] => acc
  | c :: cs => digits_to_nat (acc * 10 + (c.toNat - 48)) cs

/-- Value of a hexadecimal digit. -/
def hex_digit_val (c : Char) : Nat :=
  if c.isDigit then c.toNat - 48
  else if decide (97 ≤ c.toNat) then c.toNat - 87
  else c.toNat - 55

/-- Value of a hexadecimal digit string. -/
def hex_to_nat (acc : Nat) : List Char → Nat
  | [] => acc
  | c :: cs => hex_to_nat (acc * 16 + hex_digit_val c) cs

/-- The `Number` token's match at the head of the input: the matched
length, and the token it produces. Mirrors the logos callbacks
`i32::from_str_radix(..).ok()`: a value outside the `i32` range makes the
callback fail, so the matched span becomes an `Error` token. -/
def number_token (cs : List Char) : Option (SpecToken × Nat) :=
  let hl := hex_match_len cs
  let dl := dec_match_len cs
  if hl == 0 && dl == 0 then none
  else if decide (dl < hl) then
    let v := hex_to_nat 0 ((cs.drop 2).take (hl - 2))
    some (if decide (v ≤ 2147483647) then .number (Int.ofNat v) else .error, hl)
  else
    match cs with
    | [] => none
    | c :: rest =>
        if c == '-' then
          let v := digits_to_nat 0 (rest.take (dl - 1))
          some (if decide (v ≤ 2147483648) then .number (-(Int.ofNat v)) else .error, dl)
        else if c == '+' then
          let v := digits_to_nat 0 (rest.take (dl - 1))
          some (if decide (v ≤ 2147483647) then .number (Int.ofNat v) else .error, dl)
        else
          let v := digits_to_nat 0 ((c :: rest).take dl)
          some (if decide (v ≤ 2147483647) then .number (Int.ofNat v) else .error, dl)

/-- Result of matching one of the fixed `#token` strings: an ordinary
token, or the `return` keyword whose callback still has to run. -/
inductive FixedTok
  | tok (t : SpecToken)
  | returnKw
deriving DecidableEq, Repr

/-- The `#token` strings of `SpecToken`, in declaration order. -/
def fixed_tokens : List (List Char × FixedTok) :=
  [ ("//test".data, .tok .testStartMarker)
  , ("error".data, .tok .compileError)
  , ("runs".data, .tok .runs)
  , ("infloop".data, .tok .infiniteLoop)
  , ("abort".data, .tok .abort)
  , ("failure".data, .tok .failure)
  , ("segfault".data, .tok .segfault)
  , ("div-by-zero".data, .tok .divZero)
  , ("return".data, .returnKw)
  , ("*".data, .tok .star)
  , ("lib".data, .tok .lib)
  , ("typecheck".data, .tok .typechecked)
  , ("gc".data, .tok .garbageCollected)
  , ("safe".data, .tok .safe)
  , ("false".data, .tok .false_)
  , ("!".data, .tok .not_)
  , (",".data, .tok .comma)
  , ("or".data, .tok .or_)
  , (";".data, .tok .semicolon)
  , ("=>".data, .tok .fatArrow) ]

/-- The longest fixed token matching at the head of the input. -/
def best_fixed (cs : List Char) : Option (Nat × FixedTok) :=
  fixed_tokens.foldl
    (fun best kw =>
      if kw.1.isPrefixOf cs then
        match best with
        | some best' =>
            if decide (best'.1 < kw.1.length) then some (kw.1.length, kw.2) else best
        | none => some (kw.1.length, kw.2)
      else best)
    none

/-- Lex a single token at the head of the input (whitespace already
skipped), returning it with the number of characters consumed. Maximal
munch over fixed tokens, the number regex and the identifier regex; a
fixed token beats a regex of the same length (logos priorities); an
unmatched character becomes a length-1 `Error` token. The `return`
keyword runs `lex_return` (src/parse_spec.rs lines 337-343): it consumes
the next token, completing to `Return(Some n)` on a number, `Return(None)`
on `*`, and an `Error` token on anything else. -/
def lex_one : Nat → List Char → Option (SpecToken × Nat)
  | 0, _ => none
  | _, [] => none
  | fuel + 1, cs =>
      let fixed := best_fixed cs
      let il := ident_len cs
      let regex : Option (SpecToken × Nat) :=
        match number_token cs with
        | some (t, len) => some (t, len)
        | none =>
            if il == 0 then none
            else some (.implementation (String.mk (cs.take il)), il)
      let chosen : Option (FixedTok × Nat) :=
        match fixed, regex with
        | none, none => none
        | some (fl, ft), none => some (ft, fl)
        | none, some (t, l) => some (.tok t, l)
        | some (fl, ft), some (t, l) =>
            if decide (fl < l) then some (.tok t, l) else some (ft, fl)
      match chosen with
      | none => some (.error, 1)
      | some (.tok t, len) => some (t, len)
      | some (.returnKw, len) =>
          let rest := cs.drop len
          let w := count_ws rest
          match lex_one fuel (rest.drop w) with
          | some (.number x, l2) => some (.return_ (some x), len + w + l2)
          | some (.star, l2) => some (.return_ none, len + w + l2)
          | some (_, l2) => some (.error, len + w + l2)
          | none => some (.error, len)

/-- The full token stream with byte spans, as collected by
`SpecLexer::new` (src/parse_spec.rs lines 349-356). -/
def lex_from (fuel : Nat) (pos : Nat) (cs : List Char) :
    List (SpecToken × Nat × Nat) :=
  match fuel with
  | 0 => []
  | fuel + 1 =>
      let w := count_ws cs
      let cs' := cs.drop w
      let pos' := pos + w
      match lex_one (cs'.length + 1) cs' with
      | none => []
      | some (tok, len) =>
          (tok, pos', pos' + len) :: lex_from fuel (pos' + len) (cs'.drop len)

/-- Tokenize an input string: each entry is a token with its span. -/
def lex (cs : List Char) : List (SpecToken × Nat × Nat) :=
  lex_from (cs.length + 1) 0 cs

/-! Spec-language parser (src/parse_spec.rs, `SpecParser`) -/

/-- Embeds `SpecParseError` from src/parse_spec.rs lines 224-234: the distinct
`NotSpec` outcome, `UnexpectedToken` carrying the offending source
fragment, its range and what was expected, and `UnexpectedEOF` carrying
what was expected. -/
inductive SpecParseError
  | notSpec
  | unexpectedToken (actual : String) (start stop : Nat) (msg : String)
  | unexpectedEOF (msg : String)
deriving DecidableEq, Repr

/-- The slice `&self.input[range]` of the input. -/
def slice_string (input : List Char) (start stop : Nat) : String :=
  String.mk ((input.drop start).take (stop - start))

/-- Embeds `SpecParser::unexpected_token` (src/parse_spec.rs lines 214-221). -/
def unexpected_token (input : List Char) (start stop : Nat) (msg : String) :
    SpecParseError :=
  .unexpectedToken (slice_string input start stop) start stop msg

/-- Embeds `infix_binding_power` from src/parse_spec.rs lines 117-123. -/
def infix_binding_power : SpecToken → Option (Int × Int)
  | .or_ => some (1, 2)
  | .comma => some (3, 4)
  | _ => none

/-- Embeds `prefix_binding_power` from src/parse_spec.rs lines 125-130. -/
def prefix_binding_power : SpecToken → Option Int
  | .not_ => some 5
  | _ => none

mutual

/-- Embeds `SpecParser::parse_implementation` (src/parse_spec.rs lines 113-186),
a Pratt parser: parse an atom or a `!`-prefixed operand, then fold infix
`,` (And) and `or` (Or) operators of sufficient binding power. The `Nat`
argument is recursion fuel (the Rust recursion consumes at least one
token before every recursive call, so `tokens + 1` fuel always
suffices). -/
def parse_implementation (input : List Char) :
    Nat → Int → List (SpecToken × Nat × Nat) →
    Except SpecParseError (ImplementationPredicate × List (SpecToken × Nat × Nat))
  | 0, _, _ => .error (.unexpectedEOF "implementation predicate")
  | fuel + 1, min_bp, toks =>
      match toks with
      | [] => .error (.unexpectedEOF "implementation predicate")
      | (tok, start, stop) :: rest =>
          let lhs? : Except SpecParseError
              (ImplementationPredicate × List (SpecToken × Nat × Nat)) :=
            match tok with
            | .lib => .ok (.library, rest)
            | .typechecked => .ok (.typechecked, rest)
            | .garbageCollected => .ok (.garbageCollected, rest)
            | .safe => .ok (.safe, rest)
            | .false_ => .ok (.false_, rest)
            | .implementation name => .ok (.implementationName name, rest)
            | tok' =>
                match prefix_binding_power tok' with
                | some rhs_bp =>
                    match parse_implementation input fuel rhs_bp rest with
                    | .error e => .error e
                    | .ok (operand, rest') => .ok (.not_ operand, rest')
                | none =>
                    .error (unexpected_token input start stop
                      "implementation predicate type or prefix operator")
          match lhs? with
          | .error e => .error e
          | .ok (lhs, rest') => parse_impl_loop input fuel min_bp lhs rest'

/-- The infix loop of `parse_implementation` (src/parse_spec.rs lines
159-183): peek at the next token; stop unless it is an infix operator
whose left binding power is at least `min_bp`; otherwise consume it,
parse the right-hand side with the operator's right binding power, and
combine. -/
def parse_impl_loop (input : List Char) :
    Nat → Int → ImplementationPredicate → List (SpecToken × Nat × Nat) →
    Except SpecParseError (ImplementationPredicate × List (SpecToken × Nat × Nat))
  | 0, _, lhs, toks => .ok (lhs, toks)
  | fuel + 1, min_bp, lhs, toks =>
      match toks with
      | [] => .ok (lhs, [])
      | (tok, _, _) :: rest =>
          match infix_binding_power tok with
          | none => .ok (lhs, toks)
          | some (left_bp, right_bp) =>
              if left_bp < min_bp then .ok (lhs, toks)
              else
                match parse_implementation input fuel right_bp rest with
                | .error e => .error e
                | .ok (rhs, rest') =>
                    let lhs' := match tok with
                      | .comma => ImplementationPredicate.and_ lhs rhs
                      | _ => ImplementationPredicate.or_ lhs rhs
                    parse_impl_loop input fuel min_bp lhs' rest'

end

/-- Embeds `SpecParser::parse_behavior` (src/parse_spec.rs lines 192-212). -/
def parse_behavior (input : List Char) (toks : List (SpecToken × Nat × Nat)) :
    Except SpecParseError (Behavior × List (SpecToken × Nat × Nat)) :=
  match toks with
  | [] => .error (.unexpectedEOF "behavior")
  | (tok, start, stop) :: rest =>
      match tok with
      | .compileError => .ok (.compileError, rest)
      | .runs => .ok (.runs, rest)
      | .infiniteLoop => .ok (.infiniteLoop, rest)
      | .abort => .ok (.abort, rest)
      | .failure => .ok (.failure, rest)
      | .segfault => .ok (.segfault, rest)
      | .divZero => .ok (.divZero, rest)
      | .return_ x => .ok (.return_ x, rest)
      | _ => .error (unexpected_token input start stop "behavior")

/-- Embeds `SpecParser::parse_spec` (src/parse_spec.rs lines 76-105): a behavior
token starts a bare behavior; anything else is parsed as a predicate,
followed by a mandatory `=>` and a recursively parsed spec (so a chain
`p1 => p2 => behavior` nests to the right). -/
def parse_spec (input : List Char) :
    Nat → List (SpecToken × Nat × Nat) →
    Except SpecParseError (Spec × List (SpecToken × Nat × Nat))
  | 0, _ => .error (.unexpectedEOF "implementation or behavior")
  | fuel + 1, toks =>
      match toks with
      | [] => .error (.unexpectedEOF "implementation or behavior")
      | (tok, _, _) :: _ =>
          if tok.is_behavior then
            match parse_behavior input toks with
            | .error e => .error e
            | .ok (b, rest) => .ok (.behavior b, rest)
          else
            match parse_implementation input (toks.length + 1) 0 toks with
            | .error e => .error e
            | .ok (impl, rest) =>
                match rest with
                | (SpecToken.fatArrow, _, _) :: rest' =>
                    match parse_spec input fuel rest' with
                    | .error e => .error e
                    | .ok (consequent, rest'') =>
                        .ok (.implication impl consequent, rest'')
                | (_, start, stop) :: _ =>
                    .error (unexpected_token input start stop
                      "=> between implementation and behavior")
                | [] =>
                    .error (.unexpectedEOF
                      "=> between implementation and behavior")

/-- The top-level loop of `SpecParser::parse` (src/parse_spec.rs lines
55-64): parse a spec, then expect a semicolon (continue), end of input
(stop), or report an unexpected token. -/
def parse_specs_loop (input : List Char) :
    Nat → List (SpecToken × Nat × Nat) →
    Except SpecParseError (List Spec)
  | 0, _ => .error (.unexpectedEOF "implementation or behavior")
  | fuel + 1, toks =>
      match parse_spec input (toks.length + 1) toks with
      | .error e => .error e
      | .ok (spec, rest) =>
          match rest with
          | (SpecToken.semicolon, _, _) :: rest' =>
              match parse_specs_loop input fuel rest' with
              | .error e => .error e
              | .ok specs => .ok (spec :: specs)
          | [] => .ok [spec]
          | (_, start, stop) :: _ =>
              .error (unexpected_token input start stop
                "semicolon to separate tests")

/-- Embeds `SpecParser::parse` (src/parse_spec.rs lines 40-67) on an
already-lexed token stream: when the test marker is required, anything
but a leading `//test` token (including an empty stream) is the distinct
`NotSpec` error. -/
def parse_tokens (input : List Char) (require_test_marker : Bool)
    (toks : List (SpecToken × Nat × Nat)) :
    Except SpecParseError (List Spec) :=
  if require_test_marker then
    match toks with
    | (SpecToken.testStartMarker, _, _) :: rest =>
        parse_specs_loop input (rest.length + 1) rest
    | _ => .error .notSpec
  else
    parse_specs_loop input (toks.length + 1) toks

/-- Embeds `parse_spec::parse` (src/parse_spec.rs lines 18-21): lex the input and
run the parser; `require_test_marker` is the `ParseOptions` field. -/
def parse (input : String) (require_test_marker : Bool) :
    Except SpecParseError (List Spec) :=
  parse_tokens input.data require_test_marker (lex input.data)

/-! Discovery's use of parse results (src/discover_tests.rs) -/

/-- What `read_test_files` does with one file's spec line. -/
inductive FileAction
  | includeTest (specs : List Spec)
  | skipSilently
  | skipWithWarning
deriving DecidableEq, Repr

/-- The parse-and-dispatch step of `read_test_files`
(src/discover_tests.rs lines 126-130): a successful parse includes the
test, the `NotSpec` error skips the file silently (plain `continue`), and
any other parse error logs a warning and skips the file. -/
def read_test_file_action (spec_line : String) : FileAction :=
  match parse spec_line true with
  | .ok specs => .includeTest specs
  | .error .notSpec => .skipSilently
  | .error _ => .skipWithWarning

/-! Auxiliary values and wrappers used by the theorems below -/

/-- Concrete capability descriptor (the interpreter's, per
src/launcher.rs lines 115-123) used for counterexamples and witnesses. -/
def example_properties : ExecuterProperties :=
  { libraries := true
    typechecked := true
    garbage_collected := false
    safe := true
    name := "coin" }

/-- Runs the predicate sub-parser on a whole input string exactly the way
`parse_spec` invokes it (binding power 0, fuel covering the token list). -/
def parse_predicate (input : String) :
    Except SpecParseError
      (ImplementationPredicate × List (SpecToken × Nat × Nat)) :=
  parse_implementation input.data ((lex input.data).length + 1) 0 (lex input.data)

/-! Claim theorems -/

/-- C2: Behavior equality is wildcard-aware rather than structural: for
every integer x, Return(None) equals Return(Some(x)) and conversely; for
every Behavior b, Skipped equals b and b equals Skipped; Return(Some(a))
equals Return(Some(b)) exactly when a = b; and every other pair of
behaviors is equal exactly when they are the same variant. -/
theorem claim_C2 :
    (∀ x : Int, behavior_eq (.return_ none) (.return_ (some x)) = true ∧
      behavior_eq (.return_ (some x)) (.return_ none) = true) ∧
    (∀ b : Behavior, behavior_eq .skipped b = true ∧
      behavior_eq b .skipped = true) ∧
    (∀ a b : Int,
      behavior_eq (.return_ (some a)) (.return_ (some b)) = true ↔ a = b) ∧
    (∀ b1 b2 : Behavior, b1 ≠ .skipped → b2 ≠ .skipped →
      ¬(b1.is_return = true ∧ b2.is_return = true) →
      (behavior_eq b1 b2 = true ↔ behavior_variant b1 = behavior_variant b2)) := by
  refine ⟨fun x => ⟨rfl, rfl⟩, fun b => ⟨?_, ?_⟩, fun a b => ?_, ?_⟩
  · cases b <;> rfl
  · cases b <;> rfl
  · simp [behavior_eq]
  · intro b1 b2 h1 h2 h3
    cases b1 <;> cases b2 <;>
      simp_all [behavior_eq, behavior_variant, Behavior.is_return]

/-- Witness for C2 at concrete inputs. -/
theorem claim_C2_witness :
    behavior_eq (.return_ none) (.return_ (some 7)) = true ∧
    (behavior_eq .compileError .runs = true ↔
      behavior_variant .compileError = behavior_variant .runs) :=
  ⟨(claim_C2.1 7).1,
   claim_C2.2.2.2 .compileError .runs (by decide) (by decide) (by decide)⟩

/-- C9: Behavior equality is not transitive (hence not an equivalence
relation): Return(Some(3)) equals Return(None) and Return(None) equals
Return(Some(4)), but Return(Some(3)) does not equal Return(Some(4));
likewise any two behaviors are each equal to Skipped. -/
theorem claim_C9 :
    (¬ ∀ a b c : Behavior, behavior_eq a b = true → behavior_eq b c = true →
        behavior_eq a c = true) ∧
    behavior_eq (.return_ (some 3)) (.return_ none) = true ∧
    behavior_eq (.return_ none) (.return_ (some 4)) = true ∧
    behavior_eq (.return_ (some 3)) (.return_ (some 4)) = false ∧
    (∀ a b : Behavior, behavior_eq a .skipped = true ∧
      behavior_eq .skipped b = true) := by
  refine ⟨fun h => ?_, by decide, by decide, by decide, fun a b => ⟨?_, ?_⟩⟩
  · have h34 := h (.return_ (some 3)) (.return_ none) (.return_ (some 4))
      (by decide) (by decide)
    simp [behavior_eq] at h34
  · cases a <;> rfl
  · cases b <;> rfl

/-- C10: the free function `matches_predicate` in src/checker.rs and the
method `ExecuterProperties::matches_predicate` in src/executer.rs compute
the same function. -/
theorem claim_C10 :
    ∀ (p : ImplementationPredicate) (props : ExecuterProperties),
      Checker.matches_predicate p props = props.matches_predicate p := by
  intro p props
  induction p with
  | library => rfl
  | typechecked => rfl
  | garbageCollected => rfl
  | safe => rfl
  | false_ => rfl
  | implementationName name => rfl
  | not_ p ih =>
      simp [Checker.matches_predicate, ExecuterProperties.matches_predicate, ih]
  | and_ p q ihp ihq =>
      simp [Checker.matches_predicate, ExecuterProperties.matches_predicate,
        ihp, ihq]
  | or_ p q ihp ihq =>
      simp [Checker.matches_predicate, ExecuterProperties.matches_predicate,
        ihp, ihq]

/-- Counterexample to C5: the interpreter variant (CoinExecuter,
src/launcher.rs lines 115-123) reports `safe: true`, not memory-safe
false as claimed. -/
theorem claim_C5_counterexample :
    ¬ ((CoinExecuter.properties ⟨⟩).safe = false) := by
  intro h
  simp [CoinExecuter.properties] at h

/-- C5 (amended): each variant's capability descriptor is constant; the
interpreter variant reports garbage-collected false and memory-safe TRUE;
and all three variants report library-using true and typechecked true. -/
theorem claim_C5_amended :
    (∀ a b : CC0Executer, a.properties = b.properties) ∧
    (∀ a b : C0VMExecuter, a.properties = b.properties) ∧
    (∀ a b : CoinExecuter, a.properties = b.properties) ∧
    (∀ c : CoinExecuter, (c.properties).garbage_collected = false ∧
      (c.properties).safe = true) ∧
    (∀ e : CC0Executer, (e.properties).libraries = true ∧
      (e.properties).typechecked = true) ∧
    (∀ e : C0VMExecuter, (e.properties).libraries = true ∧
      (e.properties).typechecked = true) ∧
    (∀ e : CoinExecuter, (e.properties).libraries = true ∧
      (e.properties).typechecked = true) :=
  ⟨fun _ _ => rfl, fun _ _ => rfl, fun _ _ => rfl, fun _ => ⟨rfl, rfl⟩,
   fun _ => ⟨rfl, rfl⟩, fun _ => ⟨rfl, rfl⟩, fun _ => ⟨rfl, rfl⟩⟩

/-- C7: whenever an execution request has a source file ending in ".c1",
the interpreter variant's run_test returns the Skipped behavior with the
placeholder output, as an Ok value, without reaching the execute path
(the only path that spawns a child process). -/
theorem claim_C7 :
    ∀ test : TestExecutionInfo,
      (∃ source ∈ test.sources, ends_with source ".c1" = true) →
      CoinExecuter.run_test test = .skip "<C1 test skipped>" .skipped := by
  intro test h
  have hany : test.sources.any (fun source => ends_with source ".c1") = true :=
    List.any_eq_true.mpr h
  simp [CoinExecuter.run_test, hany]

/-- Witness for C7 at a concrete execution request. -/
theorem claim_C7_witness :
    CoinExecuter.run_test ⟨["/tests/foo.c1"], [], "/tests"⟩ =
      .skip "<C1 test skipped>" .skipped :=
  claim_C7 ⟨["/tests/foo.c1"], [], "/tests"⟩
    ⟨"/tests/foo.c1", by simp, by decide⟩

/-- Counterexample to C4: at a concrete test directory, timeout and result
environment, the child branch of `execute_with_args` (src/launcher.rs
lines 273-281) performs no address-space/memory cap and no CPU-time
rlimit at all; the only ceiling it arms is a wall-clock alarm. -/
theorem claim_C4_counterexample :
    (execute_child_actions "/tests" 10 "C0_RESULT_FILE=/tmp/c0_result1").any
        (fun a => a.is_memory_limit || a.is_cpu_limit) = false ∧
    ChildAction.setWallClockAlarm 10 ∈
      execute_child_actions "/tests" 10 "C0_RESULT_FILE=/tmp/c0_result1" := by
  exact ⟨rfl, by simp [execute_child_actions]⟩

/-- C4 (amended): before executing the target program the child changes
into the test directory, redirects stdout/stderr into the capture pipe
and arms a single wall-clock alarm of the configured timeout; it installs
no memory ceiling and no CPU-time rlimit, and expiry of the alarm
delivers SIGALRM, which the parent classifies as InfiniteLoop. -/
theorem claim_C4_amended :
    ∀ (dir : String) (timeout : Nat) (result_env : String),
      (execute_child_actions dir timeout result_env).any
          (fun a => a.is_memory_limit || a.is_cpu_limit) = false ∧
      ChildAction.setWallClockAlarm timeout ∈
        execute_child_actions dir timeout result_env ∧
      (∀ result_file, execute_result (.signaled .sigalrm) result_file =
        .ok .infiniteLoop) := by
  intro dir timeout result_env
  refine ⟨rfl, by simp [execute_child_actions], fun _ => rfl⟩

/-- C3: classification of a terminated child (src/launcher.rs lines
284-331): exit 0 with a well-formed 5-byte result file (tag byte ignored,
then a 4-byte native-endian signed integer) yields Return(Some v), where
v is the two's-complement value of those bytes; exit 0 with a missing or
malformed file is an infrastructure error; exits 1 and 4 yield Failure,
exit 2 CompileError; SIGSEGV, SIGALRM, SIGFPE, SIGABRT yield Segfault,
InfiniteLoop, DivZero, Abort; the reserved codes 100 (exec failure) and
101 (process panic) and every other exit code, signal or wait status are
infrastructure errors. -/
theorem claim_C3 :
    (∀ b0 b1 b2 b3 b4 : Nat,
      execute_result (.exited 0) (some [b0, b1, b2, b3, b4]) =
        .ok (.return_ (some (i32_from_ne_bytes b1 b2 b3 b4)))) ∧
    (∀ b1 b2 b3 b4 : Nat, b1 < 256 → b2 < 256 → b3 < 256 → b4 < 256 →
      i32_from_ne_bytes b1 b2 b3 b4 % 4294967296 =
        ((b1 + 256 * b2 + 65536 * b3 + 16777216 * b4 : Nat) : Int) % 4294967296 ∧
      -2147483648 ≤ i32_from_ne_bytes b1 b2 b3 b4 ∧
      i32_from_ne_bytes b1 b2 b3 b4 < 2147483648) ∧
    (∀ bytes : List Nat, bytes.length ≠ 5 →
      (execute_result (.exited 0) (some bytes)).is_error = true) ∧
    ((execute_result (.exited 0) none).is_error = true) ∧
    (∀ f, execute_result (.exited 1) f = .ok .failure) ∧
    (∀ f, execute_result (.exited 2) f = .ok .compileError) ∧
    (∀ f, execute_result (.exited 4) f = .ok .failure) ∧
    (∀ f (n : Nat),
      execute_result (.signaled .sigsegv) f = .ok .segfault ∧
      execute_result (.signaled .sigalrm) f = .ok .infiniteLoop ∧
      execute_result (.signaled .sigfpe) f = .ok .divZero ∧
      execute_result (.signaled .sigabrt) f = .ok .abort ∧
      (execute_result (.signaled (.other n)) f).is_error = true) ∧
    (∀ f, (execute_result (.exited EXEC_FAILURE_CODE) f).is_error = true ∧
      (execute_result (.exited RUST_PANIC_CODE) f).is_error = true) ∧
    (∀ (code : Int) f,
      code ∉ ([0, 1, 2, 4, EXEC_FAILURE_CODE, RUST_PANIC_CODE] : List Int) →
      (execute_result (.exited code) f).is_error = true) ∧
    (∀ f, (execute_result .otherStatus f).is_error = true) := by
  refine ⟨fun b0 b1 b2 b3 b4 => rfl, ?_, ?_, rfl, fun f => rfl, fun f => rfl,
    fun f => rfl,
    fun f n => ⟨rfl, rfl, rfl, rfl, rfl⟩, fun f => ⟨rfl, rfl⟩, ?_, fun f => rfl⟩
  · intro b1 b2 b3 b4 h1 h2 h3 h4
    refine ⟨?_, ?_, ?_⟩ <;>
      · simp only [i32_from_ne_bytes]
        split <;> omega
  · intro bytes h
    match bytes with
    | [] => rfl
    | [_] => rfl
    | [_, _] => rfl
    | [_, _, _] => rfl
    | [_, _, _, _] => rfl
    | [_, _, _, _, _] => exact absurd rfl h
    | _ :: _ :: _ :: _ :: _ :: _ :: _ => rfl
  · intro code f h
    simp only [List.mem_cons, List.not_mem_nil, or_false, not_or] at h
    obtain ⟨h0, h1, h2, h4, hE, hR⟩ := h
    simp [execute_result, classify_status, h0, h1, h2, h4, hE, hR,
      ExecOutcome.is_error]

/-- Witness for C3 at concrete inputs. -/
theorem claim_C3_witness :
    execute_result (.exited 0) (some [7, 1, 0, 0, 0]) =
      .ok (.return_ (some 1)) ∧
    i32_from_ne_bytes 1 0 0 0 % 4294967296 = ((1 : Nat) : Int) % 4294967296 ∧
    (execute_result (.exited 0) (some [1, 2, 3])).is_error = true ∧
    (execute_result (.exited 7) none).is_error = true := by
  obtain ⟨hret, hval, hmal, _, _, _, _, _, _, hother, _⟩ := claim_C3
  refine ⟨?_, ?_, hmal [1, 2, 3] (by decide), hother 7 none (by decide)⟩
  · have h := hret 7 1 0 0 0
    simpa using h
  · have h := (hval 1 0 0 0 (by decide) (by decide) (by decide) (by decide)).1
    simpa using h

/-- C6: in the spec-language parser, prefix Not binds tightest and comma
(And) binds tighter than or (Or), so "a or b, c" parses as
Or(a, And(b, c)), "!a, b" as And(Not a, b) and "!a or b" as Or(Not a, b);
the fat arrow is right-associating with a full spec as its right-hand
side, so "p1 => p2 => runs" parses as
Implication(p1, Implication(p2, Runs)); "safe, typecheck => return 5"
parses to Implication(And(Safe, Typechecked), Return(Some 5)); and
"cc0 or coin => return 5" parses to an implication whose predicate is
Or(Name cc0, Name coin). -/
theorem claim_C6 :
    parse_predicate "a or b, c" =
      .ok (.or_ (.implementationName "a")
        (.and_ (.implementationName "b") (.implementationName "c")), []) ∧
    parse_predicate "!a, b" =
      .ok (.and_ (.not_ (.implementationName "a"))
        (.implementationName "b"), []) ∧
    parse_predicate "!a or b" =
      .ok (.or_ (.not_ (.implementationName "a"))
        (.implementationName "b"), []) ∧
    parse "p1 => p2 => runs" false =
      .ok [.implication (.implementationName "p1")
        (.implication (.implementationName "p2") (.behavior .runs))] ∧
    parse "safe, typecheck => return 5" false =
      .ok [.implication (.and_ .safe .typechecked)
        (.behavior (.return_ (some 5)))] ∧
    parse "cc0 or coin => return 5" false =
      .ok [.implication
        (.or_ (.implementationName "cc0") (.implementationName "coin"))
        (.behavior (.return_ (some 5)))] :=
  ⟨rfl, rfl, rfl, rfl, rfl, rfl⟩

/-- C8: in marker-required mode, an empty input or an input whose first
token is not the //test marker yields the distinct NotSpec error;
UnexpectedToken carries the offending fragment, its source range and what
was expected, and is distinguishable from NotSpec, as is UnexpectedEOF;
discovery skips a file silently exactly on the NotSpec outcome, while
every other parse error skips the file with a logged warning. -/
theorem claim_C8 :
    (parse "" true = .error .notSpec) ∧
    (∀ s : String,
      (lex s.data).head?.map Prod.fst ≠ some SpecToken.testStartMarker →
      parse s true = .error .notSpec) ∧
    (parse "//test runs runs" true =
      .error (.unexpectedToken "runs" 12 16 "semicolon to separate tests")) ∧
    (∀ a p q m, SpecParseError.notSpec ≠ .unexpectedToken a p q m) ∧
    (∀ m, SpecParseError.notSpec ≠ .unexpectedEOF m) ∧
    (∀ line, read_test_file_action line = .skipSilently ↔
      parse line true = .error .notSpec) ∧
    (∀ line, read_test_file_action line = .skipWithWarning ↔
      ∃ e, parse line true = .error e ∧ e ≠ .notSpec) := by
  refine ⟨rfl, ?_, rfl, ?_, ?_, ?_, ?_⟩
  · intro s h
    show parse_tokens s.data true (lex s.data) = .error .notSpec
    cases hl : lex s.data with
    | nil => rfl
    | cons head rest =>
        obtain ⟨t, p, q⟩ := head
        rw [hl] at h
        cases t <;> simp_all [parse_tokens]
  · intro a p q m h
    cases h
  · intro m h
    cases h
  · intro line
    unfold read_test_file_action
    cases hp : parse line true with
    | ok specs => simp
    | error e => cases e <;> simp
  · intro line
    unfold read_test_file_action
    cases hp : parse line true with
    | ok specs => simp
    | error e => cases e <;> simp

/-- Witness for C8 at concrete inputs. -/
theorem claim_C8_witness :
    parse "x" true = .error .notSpec ∧
    (read_test_file_action "nope" = .skipSilently ↔
      parse "nope" true = .error .notSpec) :=
  ⟨claim_C8.2.1 "x" (by decide), claim_C8.2.2.2.2.2.1 "nope"⟩

/-- Helper: `find_behavior` resolves a spec exactly when every predicate
on its implication spine matches, and then yields the behavior at the end
of the spine. -/
theorem find_behavior_spine (s : Spec) (props : ExecuterProperties) :
    Checker.find_behavior s props =
      if (Checker.spine_preds s).all
          (fun p => Checker.matches_predicate p props) then
        some (Checker.spine_behavior s)
      else none := by
  induction s with
  | behavior b =>
      simp [Checker.find_behavior, Checker.spine_preds, Checker.spine_behavior]
  | implication p c ih =>
      by_cases h : Checker.matches_predicate p props
      · simp [Checker.find_behavior, Checker.spine_preds,
          Checker.spine_behavior, h, ih]
      · simp [Checker.find_behavior, Checker.spine_preds, h]

/-- Helper: the comparison loop returns Success exactly when every
collected behavior is `behavior_eq` to the actual one. -/
theorem check_behaviors_success_iff (bs : List Behavior) (actual : Behavior)
    (output : String) :
    Checker.check_behaviors bs actual output = .success ↔
      ∀ b ∈ bs, behavior_eq b actual = true := by
  induction bs with
  | nil => simp [Checker.check_behaviors]
  | cons b rest ih =>
      by_cases h : behavior_eq b actual
      · simp [Checker.check_behaviors, h, ih]
      · simp [Checker.check_behaviors, h]

/-- Helper: the comparison loop returns a mismatch exactly for the first
collected behavior that is not `behavior_eq` to the actual one, carrying
the actual behavior and the captured output. -/
theorem check_behaviors_mismatch_iff (bs : List Behavior)
    (actual : Behavior) (output : String) (e a : Behavior) (o : String) :
    Checker.check_behaviors bs actual output = .mismatch e a o ↔
      a = actual ∧ o = output ∧
      ∃ l1 l2, bs = l1 ++ e :: l2 ∧
        (∀ b ∈ l1, behavior_eq b actual = true) ∧
        behavior_eq e actual = false := by
  induction bs with
  | nil =>
      simp only [Checker.check_behaviors]
      constructor
      · intro h
        cases h
      · rintro ⟨-, -, l1, l2, h, -, -⟩
        exact absurd h (by simp)
  | cons b rest ih =>
      by_cases h : behavior_eq b actual
      · rw [show Checker.check_behaviors (b :: rest) actual output =
            Checker.check_behaviors rest actual output from by
              simp [Checker.check_behaviors, h]]
        rw [ih]
        constructor
        · rintro ⟨ha, ho, l1, l2, hsplit, hall, hne⟩
          refine ⟨ha, ho, b :: l1, l2, by simp [hsplit], ?_, hne⟩
          intro x hx
          rcases List.mem_cons.mp hx with rfl | hx'
          · exact h
          · exact hall x hx'
        · rintro ⟨ha, ho, l1, l2, hsplit, hall, hne⟩
          cases l1 with
          | nil =>
              simp only [List.nil_append, List.cons.injEq] at hsplit
              obtain ⟨rfl, rfl⟩ := hsplit
              rw [h] at hne
              cases hne
          | cons b' l1' =>
              simp only [List.cons_append, List.cons.injEq] at hsplit
              obtain ⟨rfl, hsplit'⟩ := hsplit
              exact ⟨ha, ho, l1', l2, hsplit',
                fun x hx => hall x (List.mem_cons_of_mem _ hx), hne⟩
      · rw [show Checker.check_behaviors (b :: rest) actual output =
            .mismatch b actual output from by simp [Checker.check_behaviors, h]]
        constructor
        · intro hm
          cases hm
          exact ⟨rfl, rfl, [], rest, rfl, by simp, by simpa using h⟩
        · rintro ⟨rfl, rfl, l1, l2, hsplit, hall, hne⟩
          cases l1 with
          | nil =>
              simp only [List.nil_append, List.cons.injEq] at hsplit
              obtain ⟨rfl, -⟩ := hsplit
              rfl
          | cons b' l1' =>
              simp only [List.cons_append, List.cons.injEq] at hsplit
              obtain ⟨rfl, -⟩ := hsplit
              exact absurd (hall b (List.mem_cons_self _ _)) (by simpa using h)

/-- C1 (amended): the oracle resolves each top-level Spec entry by
descending through Implication nodes, contributing the behavior at the
end of the chain when every predicate on the chain evaluates true against
the descriptor and nothing when any predicate is false; if no entry
contributes, the result is Success without invoking the implementation's
execution entry point; otherwise the actual behavior must equal every
contributed behavior under the wildcard-aware equality, and the first
entry whose behavior differs is reported as a Mismatch carrying that
expected behavior, the actual behavior and the captured output. -/
theorem claim_C1_amended :
    (∀ (s : Spec) (props : ExecuterProperties),
      Checker.find_behavior s props =
        if (Checker.spine_preds s).all
            (fun p => Checker.matches_predicate p props) then
          some (Checker.spine_behavior s)
        else none) ∧
    (∀ specs props output actual,
      Checker.collect_behaviors specs props = [] →
      Checker.run_test specs props (output, actual) = (.success, false)) ∧
    (∀ specs props output actual,
      Checker.collect_behaviors specs props ≠ [] →
      (Checker.run_test specs props (output, actual)).2 = true ∧
      ((Checker.run_test specs props (output, actual)).1 = .success ↔
        ∀ b ∈ Checker.collect_behaviors specs props,
          behavior_eq b actual = true)) ∧
    (∀ specs props output actual e a o,
      (Checker.run_test specs props (output, actual)).1 = .mismatch e a o ↔
        a = actual ∧ o = output ∧
        ∃ l1 l2, Checker.collect_behaviors specs props = l1 ++ e :: l2 ∧
          (∀ b ∈ l1, behavior_eq b actual = true) ∧
          behavior_eq e actual = false) := by
  refine ⟨find_behavior_spine, ?_, ?_, ?_⟩
  · intro specs props output actual h
    simp [Checker.run_test, h]
  · intro specs props output actual h
    obtain ⟨b, bs, hcons⟩ := List.exists_cons_of_ne_nil h
    constructor
    · simp [Checker.run_test, hcons]
    · rw [show (Checker.run_test specs props (output, actual)).1 =
          Checker.check_behaviors (Checker.collect_behaviors specs props)
            actual output from by simp [Checker.run_test, hcons]]
      exact check_behaviors_success_iff _ _ _
  · intro specs props output actual e a o
    by_cases h : Checker.collect_behaviors specs props = []
    · constructor
      · intro hm
        rw [show (Checker.run_test specs props (output, actual)).1 =
            .success from by simp [Checker.run_test, h]] at hm
        cases hm
      · rintro ⟨-, -, l1, l2, hsplit, -, -⟩
        rw [h] at hsplit
        exact absurd hsplit (by simp)
    · obtain ⟨b, bs, hcons⟩ := List.exists_cons_of_ne_nil h
      rw [show (Checker.run_test specs props (output, actual)).1 =
          Checker.check_behaviors (Checker.collect_behaviors specs props)
            actual output from by simp [Checker.run_test, hcons]]
      exact check_behaviors_mismatch_iff _ _ _ _ _ _

/-- Counterexample to C1: on the entry
False => (lib => runs) with the interpreter's descriptor, the claimed
resolution rule ("the wrapped Behavior at the first node whose predicate
evaluates true; nothing only if no predicate in the chain is true") makes
the entry contribute Runs, since the inner predicate is true, but
`find_behavior` contributes nothing because the outer predicate is false,
and the oracle therefore succeeds without executing anything. -/
theorem claim_C1_counterexample :
    Checker.spec_resolve_first_true
        (.implication .false_ (.implication .library (.behavior .runs)))
        example_properties = some .runs ∧
    Checker.find_behavior
        (.implication .false_ (.implication .library (.behavior .runs)))
        example_properties = none ∧
    Checker.run_test
        [.implication .false_ (.implication .library (.behavior .runs))]
        example_properties ("", .failure) = (.success, false) :=
  ⟨rfl, rfl, rfl⟩

/-- Witness for C1 (amended) at concrete inputs. -/
theorem claim_C1_amended_witness :
    Checker.run_test [] example_properties ("", .runs) = (.success, false) ∧
    (Checker.run_test [.behavior .failure] example_properties
      ("out", .runs)).2 = true ∧
    (Checker.run_test [.behavior .failure] example_properties
      ("out", .runs)).1 = .mismatch .failure .runs "out" := by
  obtain ⟨-, hempty, hnonempty, hmis⟩ := claim_C1_amended
  refine ⟨hempty [] example_properties "" .runs rfl,
    (hnonempty [.behavior .failure] example_properties "out" .runs
      (by decide)).1, ?_⟩
  exact (hmis [.behavior .failure] example_properties "out" .runs
      .failure .runs "out").mpr
    ⟨rfl, rfl, [], [], by decide, by simp, by decide⟩

end C0check
